import Mathlib

/-!
# Verification of the chat middleware pipeline

Shallow embedding of `Django-Middleware-0x03/chats/middleware.py` together
with the middleware ordering from `Django-Middleware-0x03/settings.py`.

Time is modelled as `Nat` seconds; the Django cache (`django.core.cache`)
is modelled as a finite-support map from keys to entries carrying the
stored bucket and its absolute expiry instant, which is how the
local-memory cache implements `cache.set(key, value, timeout)` /
`cache.get(key, default)`.
-/

namespace Middleware

/-- A window-state bucket: the dict `{"count": _, "reset_at": _}` built in
`OffensiveLanguageMiddleware.__call__`. -/
structure Bucket where
  count : Nat
  reset_at : Nat
deriving DecidableEq

/-- One cache entry: the stored value plus the absolute instant at which the
backend expires it (`cache.set(key, value, ttl)` stores until `now + ttl`). -/
structure CacheEntry where
  value : Bucket
  expires_at : Nat
deriving DecidableEq

/-- The cache backend state: key to live entry, `none` when absent. -/
def Cache : Type := String → Option CacheEntry

/-- `cache.get(key)`: returns the stored value unless the key is absent or
the entry's time-to-live has elapsed. -/
def cacheGet (c : Cache) (now : Nat) (key : String) : Option Bucket :=
  match c key with
  | none => none
  | some e => if now < e.expires_at then some e.value else none

/-- `cache.set(key, value, ttl)`: installs the value with expiry `now + ttl`. -/
def cacheSet (c : Cache) (now : Nat) (key : String) (v : Bucket) (ttl : Nat) : Cache :=
  fun k => if k = key then some ⟨v, now + ttl⟩ else c k

/-- The authenticated-user data the middleware reads off `request.user`. -/
structure User where
  is_authenticated : Bool
  username : String
  is_superuser : Bool
  groups : List String
deriving DecidableEq

/-- The parts of a Django request the four middlewares consume. -/
structure Request where
  method : String
  path : String
  http_x_forwarded_for : Option String
  remote_addr : Option String
  user : Option User
deriving DecidableEq

/-- Python's `str.startswith`: character-wise comparison of a candidate
leading substring. (Core's `String.startsWith` is extensionally the same
test but is defined by well-founded recursion over byte positions and does
not reduce inside the kernel, so the Python operation is embedded on the
character list directly.) -/
def strStarts (s pre : String) : Bool := pre.data.isPrefixOf s.data

/-- `_get_client_ip`: first X-Forwarded-For hop when the header is a
non-empty string, else `REMOTE_ADDR`, else `"0.0.0.0"`. -/
def get_client_ip (r : Request) : String :=
  match r.http_x_forwarded_for with
  | some xff =>
      if xff ≠ "" then ((xff.splitOn ",").headD "").trim
      else r.remote_addr.getD "0.0.0.0"
  | none => r.remote_addr.getD "0.0.0.0"

/-! ## RequestLoggingMiddleware -/

/-- The user field of the log line: `request.user.username` when a user is
attached and authenticated, else `"anonymous"`. -/
def log_user (r : Request) : String :=
  match r.user with
  | some u => if u.is_authenticated then u.username else "anonymous"
  | none => "anonymous"

/-- The logged line for timestamp string `ts`:
`f"{ts} - User: {user} - Path: {request.path}"`. -/
def log_line (ts : String) (r : Request) : String :=
  ts ++ " - User: " ++ log_user r ++ " - Path: " ++ r.path

/-! ## RestrictAccessByTimeMiddleware -/

def START_HOUR : Nat := 6
def END_HOUR : Nat := 21

/-- `allowed = self.START_HOUR <= hour < self.END_HOUR`. -/
def time_allowed (hour : Nat) : Bool :=
  decide (START_HOUR ≤ hour) && decide (hour < END_HOUR)

def timeDenyBody : String := "Chat is closed. Please come back during allowed hours."

/-! ## OffensiveLanguageMiddleware (the rate limiter) -/

def WINDOW_SECONDS : Nat := 60
def MAX_MESSAGES : Nat := 5
def SCOPE_PREF : String := "chat_rate_"

def rateDenyBody : String := "Rate limit exceeded: max 5 messages per minute."

/-- The cache key for a request's client: `f"{self.SCOPE_PREFIX}{ip}"`. -/
def rateKey (r : Request) : String := SCOPE_PREF ++ get_client_ip r

/-- Whether the rate limiter applies:
`request.method == "POST" and request.path.startswith("/chats")`. -/
def rateScoped (r : Request) : Prop :=
  r.method = "POST" ∧ strStarts r.path "/chats" = true

instance (r : Request) : Decidable (rateScoped r) :=
  inferInstanceAs (Decidable (_ ∧ _))

/-- The read-and-mutate half of the limiter body: `cache.get` with the fresh
default, the expiry reset, and the increment — everything before the first
`cache.set`. -/
def rateNextBucket (c : Cache) (now : Nat) (r : Request) : Bucket :=
  let b := (cacheGet c now (rateKey r)).getD ⟨0, now + WINDOW_SECONDS⟩
  let b := if now ≥ b.reset_at then ⟨0, now + WINDOW_SECONDS⟩ else b
  ⟨b.count + 1, b.reset_at⟩

/-- The write-and-decide half: `cache.set(key, bucket, WINDOW_SECONDS)` on
both branches, denial exactly when the incremented count exceeds the cap. -/
def rateCommit (c : Cache) (now : Nat) (r : Request) (b : Bucket) :
    Option String × Cache :=
  if b.count > MAX_MESSAGES then
    (some rateDenyBody, cacheSet c now (rateKey r) b WINDOW_SECONDS)
  else
    (none, cacheSet c now (rateKey r) b WINDOW_SECONDS)

/-- `OffensiveLanguageMiddleware.__call__` up to the downstream handler:
`some body` is a rate-limit denial, `none` lets the request pass. -/
def offensiveStep (c : Cache) (now : Nat) (r : Request) : Option String × Cache :=
  if rateScoped r then rateCommit c now r (rateNextBucket c now r)
  else (none, c)

/-- The rate-limit gate over a store whose read may raise: `getRes k` is
the outcome of `cache.get(k)` (`Except.error` models a raising backend),
and the rest of the body is the same mutate-and-commit sequence.
`OffensiveLanguageMiddleware.__call__` installs no exception handler, so a
raised store error propagates out of the gate. -/
def offensiveStepE (getRes : String → Except Unit (Option Bucket))
    (c : Cache) (now : Nat) (r : Request) : Except Unit (Option String × Cache) :=
  if rateScoped r then
    match getRes (rateKey r) with
    | .error e => .error e
    | .ok ob =>
        let b := ob.getD ⟨0, now + WINDOW_SECONDS⟩
        let b := if now ≥ b.reset_at then ⟨0, now + WINDOW_SECONDS⟩ else b
        .ok (rateCommit c now r ⟨b.count + 1, b.reset_at⟩)
  else .ok (none, c)

/-- A store read that always raises. -/
def failingGet : String → Except Unit (Option Bucket) := fun _ => .error ()

/-! ## RolepermissionMiddleware -/

/-- `request.path.startswith(self.PROTECTED_PREFIXES)`. -/
def roleProtected (r : Request) : Bool :=
  strStarts r.path "/chats/admin" || strStarts r.path "/chats/moderate"

/-- `user and user.is_authenticated and (user.is_superuser or
user.groups.filter(name__in=["admin", "moderator"]).exists())`. -/
def role_is_allowed (r : Request) : Bool :=
  match r.user with
  | none => false
  | some u =>
      u.is_authenticated &&
        (u.is_superuser || u.groups.any fun g => g == "admin" || g == "moderator")

def roleDenyBody : String := "Forbidden: admin/moderator role required."

/-- `RolepermissionMiddleware.__call__` up to the downstream handler. -/
def roleStep (r : Request) : Option String :=
  if roleProtected r then
    if role_is_allowed r then none else some roleDenyBody
  else none

/-! ## The pipeline (custom middleware order from `settings.MIDDLEWARE`) -/

/-- Response of the custom middleware chain: a `Forbidden` cut-off or a
hand-off to the downstream handler. -/
inductive Response where
  | forbidden (body : String)
  | forwarded
deriving DecidableEq

/-- Outcome of one request through the four custom middlewares: the
response, the cache state after the request, and the emitted log line. -/
structure PipeResult where
  response : Response
  cache : Cache
  log : String

/-- Decision and cache effect of one request through
`RestrictAccessByTimeMiddleware` → `OffensiveLanguageMiddleware` →
`RolepermissionMiddleware`, in the order `settings.MIDDLEWARE` lists them:
the first denying gate short-circuits. `hour` is the local hour read by the
time gate, `now` the clock in seconds read by the rate limiter. -/
def pipelineCore (c : Cache) (hour now : Nat) (r : Request) : Response × Cache :=
  if time_allowed hour = false then (.forbidden timeDenyBody, c)
  else
    match offensiveStep c now r with
    | (some body, c') => (.forbidden body, c')
    | (none, c') =>
        match roleStep r with
        | some body => (.forbidden body, c')
        | none => (.forwarded, c')

/-- One request through the full custom chain:
`RequestLoggingMiddleware` logs unconditionally before delegating, so every
request carries exactly one log line whatever the gates decide. `ts` is the
already-formatted timestamp string the logger interpolates. -/
def pipeline (c : Cache) (ts : String) (hour now : Nat) (r : Request) : PipeResult :=
  ⟨(pipelineCore c hour now r).1, (pipelineCore c hour now r).2, log_line ts r⟩

/-! ## Sequential runs of the rate limiter -/

/-- Run the rate-limit gate once per timestamp in `ts`, threading the cache;
collects the per-request decisions (`none` = Allow, `some body` = Deny). -/
def rateSeq (c : Cache) (ts : List Nat) (r : Request) : List (Option String) × Cache :=
  match ts with
  | [] => ([], c)
  | t :: rest =>
      let step := offensiveStep c t r
      let tail := rateSeq step.2 rest r
      (step.1 :: tail.1, tail.2)

/-- Number of denied requests in a decision list. -/
def countDenies (ds : List (Option String)) : Nat :=
  ds.countP fun d => d.isSome

/-! ## An interleaved (racy) execution of two rate-limit calls

Both calls read the shared cache before either write lands — the get/put
interleaving the source does nothing to prevent. -/

/-- Two same-client rate-limit calls whose `cache.get`s both happen before
either `cache.set`: read₁, read₂, write₁, write₂. -/
def raceRun (c : Cache) (t1 t2 : Nat) (r : Request) :
    (Option String × Option String) × Cache :=
  let b1 := rateNextBucket c t1 r
  let b2 := rateNextBucket c t2 r
  let s1 := rateCommit c t1 r b1
  let s2 := rateCommit s1.2 t2 r b2
  ((s1.1, s2.1), s2.2)

/-! ## Concrete objects used by witnesses -/

/-- A rate-limited request: a POST to a `/chats` path from client
`203.0.113.7`. -/
def wReq : Request := ⟨"POST", "/chats/send", none, some "203.0.113.7", none⟩

/-- The same path requested with GET, which the rate limiter must ignore. -/
def wGetReq : Request := ⟨"GET", "/chats/send", none, some "203.0.113.7", none⟩

/-- The empty cache. -/
def wCache : Cache := fun _ => none

/-- A cache whose entry for `wReq`'s client is live but whose window has
already expired (reset instant 50, consulted at time 80). -/
def wCacheExpired : Cache :=
  fun k => if k = rateKey wReq then some ⟨⟨3, 50⟩, 200⟩ else none

/-- A cache whose entry for `wReq`'s client holds four admitted requests in
a window open until 100, entry live until 90. -/
def wCacheRace : Cache :=
  fun k => if k = rateKey wReq then some ⟨⟨4, 100⟩, 90⟩ else none

/-- A cache whose entry for `wReq`'s client was written at time 0 (count 1,
reset instant 60, expiry 60); a follow-up request at time 30 re-stores the
same window with a full fresh time-to-live. -/
def wCacheMid : Cache :=
  fun k => if k = rateKey wReq then some ⟨⟨1, 60⟩, 60⟩ else none

/-- A store read that succeeds, returning whatever the empty cache holds. -/
def okGet : String → Except Unit (Option Bucket) :=
  fun k => .ok (cacheGet wCache 0 k)

/-- An authenticated member of the `admin` group. -/
def wAdmin : User := ⟨true, "alice", false, ["admin"]⟩

/-- A protected-path request from `wAdmin`. -/
def wReqAdmin : Request :=
  ⟨"GET", "/chats/admin/x", none, some "203.0.113.7", some wAdmin⟩

/-- A protected-path request with no user attached. -/
def wReqAnon : Request :=
  ⟨"GET", "/chats/admin/x", none, some "203.0.113.7", none⟩

/-! ## Basic lemmas about the embedding -/

theorem cacheSet_same (c : Cache) (now : Nat) (key : String) (v : Bucket) (ttl : Nat) :
    cacheSet c now key v ttl key = some ⟨v, now + ttl⟩ := by
  unfold cacheSet; simp

theorem cacheSet_other (c : Cache) (now : Nat) (key k : String) (v : Bucket)
    (ttl : Nat) (h : k ≠ key) : cacheSet c now key v ttl k = c k := by
  unfold cacheSet; simp [h]

theorem cacheGet_entry (c : Cache) (now : Nat) (key : String) (e : CacheEntry)
    (hc : c key = some e) (hlive : now < e.expires_at) :
    cacheGet c now key = some e.value := by
  unfold cacheGet; rw [hc]; simp [hlive]

theorem offensiveStep_scoped (c : Cache) (now : Nat) (r : Request)
    (hs : rateScoped r) :
    offensiveStep c now r = rateCommit c now r (rateNextBucket c now r) := by
  unfold offensiveStep; rw [if_pos hs]

theorem rateCommit_eq (c : Cache) (now : Nat) (r : Request) (b : Bucket) :
    rateCommit c now r b =
      ((if b.count > MAX_MESSAGES then some rateDenyBody else none),
        cacheSet c now (rateKey r) b WINDOW_SECONDS) := by
  unfold rateCommit; split <;> simp_all

theorem rateNextBucket_entry (c : Cache) (now : Nat) (r : Request)
    (k R e : Nat) (hc : c (rateKey r) = some ⟨⟨k, R⟩, e⟩)
    (hlive : now < e) (hwin : now < R) :
    rateNextBucket c now r = ⟨k + 1, R⟩ := by
  unfold rateNextBucket
  rw [cacheGet_entry c now (rateKey r) ⟨⟨k, R⟩, e⟩ hc hlive]
  simp [Nat.not_le.mpr hwin]

theorem rateNextBucket_fresh (c : Cache) (now : Nat) (r : Request)
    (habs : cacheGet c now (rateKey r) = none) :
    rateNextBucket c now r = ⟨1, now + WINDOW_SECONDS⟩ := by
  unfold rateNextBucket
  rw [habs]
  have h : ¬ now ≥ now + WINDOW_SECONDS := by unfold WINDOW_SECONDS; omega
  simp [h]

theorem rateSeq_cons (c : Cache) (t : Nat) (rest : List Nat) (r : Request) :
    rateSeq c (t :: rest) r =
      ((offensiveStep c t r).1 :: (rateSeq (offensiveStep c t r).2 rest r).1,
        (rateSeq (offensiveStep c t r).2 rest r).2) :=
  rfl

/-! ## The fixed-window invariant over sequential runs -/

/-- Invariant: starting from a live entry with count `k` and reset instant
`R` at least a full window after `t0`, a run of scoped requests all timed
inside `[t0, t0 + WINDOW_SECONDS)` yields Allow exactly while the running
count stays within `MAX_MESSAGES`, leaves `R` untouched, and ends with the
count increased by the number of requests (denied ones included). -/
theorem rateSeq_window_inv (r : Request) (hs : rateScoped r) (t0 R : Nat)
    (hR : t0 + WINDOW_SECONDS ≤ R) :
    ∀ (ts : List Nat) (c : Cache) (k e : Nat),
      c (rateKey r) = some ⟨⟨k, R⟩, e⟩ →
      t0 + WINDOW_SECONDS ≤ e →
      (∀ t ∈ ts, t0 ≤ t ∧ t < t0 + WINDOW_SECONDS) →
      (rateSeq c ts r).1 = (List.range ts.length).map
          (fun i => if k + i < MAX_MESSAGES then none else some rateDenyBody)
      ∧ ∃ e', (rateSeq c ts r).2 (rateKey r) = some ⟨⟨k + ts.length, R⟩, e'⟩
            ∧ t0 + WINDOW_SECONDS ≤ e' := by
  intro ts
  induction ts with
  | nil =>
      intro c k e hc he _
      exact ⟨by simp [rateSeq], e, by simpa [rateSeq] using hc, he⟩
  | cons t rest ih =>
      intro c k e hc he hts
      obtain ⟨ht0, htw⟩ := hts t (List.mem_cons_self t rest)
      have hstep : offensiveStep c t r =
          ((if k + 1 > MAX_MESSAGES then some rateDenyBody else none),
            cacheSet c t (rateKey r) ⟨k + 1, R⟩ WINDOW_SECONDS) := by
        rw [offensiveStep_scoped c t r hs,
          rateNextBucket_entry c t r k R e hc (by omega) (by omega),
          rateCommit_eq]
      have hc' : (cacheSet c t (rateKey r) ⟨k + 1, R⟩ WINDOW_SECONDS) (rateKey r)
          = some ⟨⟨k + 1, R⟩, t + WINDOW_SECONDS⟩ := cacheSet_same ..
      have he' : t0 + WINDOW_SECONDS ≤ t + WINDOW_SECONDS := by omega
      obtain ⟨hds, e'', hend, hebound⟩ :=
        ih (cacheSet c t (rateKey r) ⟨k + 1, R⟩ WINDOW_SECONDS) (k + 1)
          (t + WINDOW_SECONDS) hc' he' (fun t' ht' => hts t' (List.mem_cons_of_mem t ht'))
      rw [rateSeq_cons, hstep]
      dsimp only
      refine ⟨?_, e'', ?_, hebound⟩
      · simp only [List.length_cons, List.range_succ_eq_map, List.map_cons, List.map_map]
        congr 1
        · by_cases hk : k < MAX_MESSAGES
          · rw [if_neg (by omega), if_pos (by omega)]
          · rw [if_pos (by omega), if_neg (by omega)]
        · rw [hds]
          exact List.map_congr_left fun i _ => by
            simp only [Function.comp]
            exact if_congr (by omega) rfl rfl
      · have hlen : k + (t :: rest).length = k + 1 + rest.length := by
          simp only [List.length_cons]
          omega
        rw [hlen]
        exact hend

/-- A fresh-window run: the key is absent (or expired) at the first request,
which creates the window; every later request happens inside it. -/
theorem rateSeq_fresh_run (r : Request) (hs : rateScoped r) (t0 u : Nat)
    (rest : List Nat) (c : Cache)
    (habs : cacheGet c u (rateKey r) = none)
    (hu0 : t0 ≤ u)
    (hrest : ∀ t ∈ rest, t0 ≤ t ∧ t < t0 + WINDOW_SECONDS) :
    (rateSeq c (u :: rest) r).1 = (List.range (rest.length + 1)).map
        (fun i => if i < MAX_MESSAGES then none else some rateDenyBody)
    ∧ ∃ e', (rateSeq c (u :: rest) r).2 (rateKey r)
          = some ⟨⟨rest.length + 1, u + WINDOW_SECONDS⟩, e'⟩ := by
  have hstep : offensiveStep c u r =
      (none, cacheSet c u (rateKey r) ⟨1, u + WINDOW_SECONDS⟩ WINDOW_SECONDS) := by
    rw [offensiveStep_scoped c u r hs, rateNextBucket_fresh c u r habs, rateCommit_eq]
    have h1 : ¬ (1 > MAX_MESSAGES) := by decide
    rw [if_neg h1]
  have hc' : (cacheSet c u (rateKey r) ⟨1, u + WINDOW_SECONDS⟩ WINDOW_SECONDS) (rateKey r)
      = some ⟨⟨1, u + WINDOW_SECONDS⟩, u + WINDOW_SECONDS⟩ := cacheSet_same ..
  obtain ⟨hds, e'', hend, _⟩ :=
    rateSeq_window_inv r hs t0 (u + WINDOW_SECONDS) (by omega) rest
      (cacheSet c u (rateKey r) ⟨1, u + WINDOW_SECONDS⟩ WINDOW_SECONDS) 1
      (u + WINDOW_SECONDS) hc' (by omega) hrest
  rw [rateSeq_cons, hstep]
  dsimp only
  refine ⟨?_, e'', ?_⟩
  · simp only [List.range_succ_eq_map, List.map_cons, List.map_map]
    congr 1
    rw [hds]
    exact List.map_congr_left fun i _ => by
      simp only [Function.comp]
      exact if_congr (by omega) rfl rfl
  · rw [show rest.length + 1 = 1 + rest.length from by omega]
    exact hend

/-- Closed form for the number of denials in an expected decision list. -/
theorem countDenies_expected (n k : Nat) :
    countDenies ((List.range n).map
        (fun i => if k + i < MAX_MESSAGES then none else some rateDenyBody))
      = n - (MAX_MESSAGES - k) := by
  induction n with
  | zero => simp [countDenies]
  | succ m ih =>
      have h0 : List.countP (fun d => d.isSome) [(none : Option String)] = 0 := by simp
      have h1 : List.countP (fun d => d.isSome) [some rateDenyBody] = 1 := by simp
      unfold countDenies at ih ⊢
      rw [List.range_succ, List.map_append, List.countP_append, ih,
        List.map_cons, List.map_nil]
      by_cases hm : k + m < MAX_MESSAGES
      · rw [if_pos hm, h0]
        omega
      · rw [if_neg hm, h1]
        omega

/-- The written-back bucket always carries a positive count and a reset
instant strictly in the future of the write. -/
theorem rateNextBucket_spec (c : Cache) (now : Nat) (r : Request) :
    1 ≤ (rateNextBucket c now r).count ∧ now < (rateNextBucket c now r).reset_at := by
  have hW : WINDOW_SECONDS = 60 := rfl
  unfold rateNextBucket
  dsimp only
  constructor
  · omega
  · split
    · show now < now + WINDOW_SECONDS
      omega
    · omega

/-- Unfolding of the role check into its propositional reading. -/
theorem role_is_allowed_iff (r : Request) :
    role_is_allowed r = true ↔
      ∃ u, r.user = some u ∧ u.is_authenticated = true ∧
        (u.is_superuser = true ∨ ∃ g ∈ u.groups, g = "admin" ∨ g = "moderator") := by
  unfold role_is_allowed
  cases hu : r.user with
  | none => simp
  | some u =>
      simp [Bool.and_eq_true, Bool.or_eq_true, List.any_eq_true, beq_iff_eq]

/-! ## The claims -/

/-- C1: for a client whose key is fresh at the first request, sequential
rate-limited requests all timed inside the window opened by that first
request are Allowed while numbered 1 through `MAX_MESSAGES` and Denied with
the exact rate-limit body from then on; every request — denied ones
included — increments the stored count (final count = number of requests)
and the stored reset instant stays at its window-opening value. -/
theorem claim_C1_fixed_window_counting (c : Cache) (r : Request) (t0 : Nat)
    (rest : List Nat)
    (hm : r.method = "POST") (hp : strStarts r.path "/chats" = true)
    (habs : cacheGet c t0 (rateKey r) = none)
    (hrest : ∀ t ∈ rest, t0 ≤ t ∧ t < t0 + WINDOW_SECONDS) :
    (rateSeq c (t0 :: rest) r).1 = (List.range (rest.length + 1)).map
        (fun i => if i < MAX_MESSAGES then none
          else some "Rate limit exceeded: max 5 messages per minute.")
    ∧ ((rateSeq c (t0 :: rest) r).2 (rateKey r)).map CacheEntry.value
        = some ⟨rest.length + 1, t0 + WINDOW_SECONDS⟩ := by
  obtain ⟨hds, e', hend⟩ :=
    rateSeq_fresh_run r ⟨hm, hp⟩ t0 t0 rest c habs (le_refl t0) hrest
  refine ⟨by simpa [rateDenyBody] using hds, ?_⟩
  rw [hend]
  rfl

theorem claim_C1_witness :
    (rateSeq wCache (0 :: [10, 20, 30, 40, 50, 59]) wReq).1
        = (List.range ([10, 20, 30, 40, 50, 59].length + 1)).map
          (fun i => if i < MAX_MESSAGES then none
            else some "Rate limit exceeded: max 5 messages per minute.")
    ∧ ((rateSeq wCache (0 :: [10, 20, 30, 40, 50, 59]) wReq).2 (rateKey wReq)).map
          CacheEntry.value
        = some ⟨[10, 20, 30, 40, 50, 59].length + 1, 0 + WINDOW_SECONDS⟩ :=
  claim_C1_fixed_window_counting wCache wReq 0 [10, 20, 30, 40, 50, 59]
    rfl (by decide) rfl (by decide)

/-- C2: when the stored window for a client is absent (including
TTL-evicted) or its reset instant has passed, the next rate-limited request
is Allowed and the state written back is a fresh window with count 1 and
reset instant `now + WINDOW_SECONDS`. -/
theorem claim_C2_fresh_window (c : Cache) (now : Nat) (r : Request)
    (hm : r.method = "POST") (hp : strStarts r.path "/chats" = true)
    (h : cacheGet c now (rateKey r) = none ∨
        ∃ b, cacheGet c now (rateKey r) = some b ∧ b.reset_at ≤ now) :
    (offensiveStep c now r).1 = none
    ∧ (offensiveStep c now r).2 (rateKey r)
        = some ⟨⟨1, now + WINDOW_SECONDS⟩, now + WINDOW_SECONDS⟩ := by
  have hb : rateNextBucket c now r = ⟨1, now + WINDOW_SECONDS⟩ := by
    rcases h with habs | ⟨b, hbst, hnow⟩
    · exact rateNextBucket_fresh c now r habs
    · unfold rateNextBucket
      rw [hbst]
      simp only [Option.getD_some]
      rw [if_pos hnow]
  rw [offensiveStep_scoped c now r ⟨hm, hp⟩, hb, rateCommit_eq]
  have h5 : ¬ (1 > MAX_MESSAGES) := by decide
  rw [if_neg h5]
  exact ⟨rfl, cacheSet_same ..⟩

theorem claim_C2_witness :
    (offensiveStep wCacheExpired 80 wReq).1 = none
    ∧ (offensiveStep wCacheExpired 80 wReq).2 (rateKey wReq)
        = some ⟨⟨1, 80 + WINDOW_SECONDS⟩, 80 + WINDOW_SECONDS⟩ :=
  claim_C2_fresh_window wCacheExpired 80 wReq rfl (by decide)
    (Or.inr ⟨⟨3, 50⟩, by simp [wCacheExpired, cacheGet], by decide⟩)

/-- C3: (a) if two same-client rate-limit calls interleave so that both
`cache.get`s precede both `cache.set`s, both observe the same pre-increment
count `k`, the final stored count is `k + 1` (one admission lost), every
other key of the mapping is untouched, and both calls are Allowed whenever
`k + 1 ≤ MAX_MESSAGES` (so more than `MAX_MESSAGES` can slip through);
(b) under a store where each get-modify-put runs atomically, any
serialization of `N` same-client requests inside one fresh window denies at
least `N - MAX_MESSAGES` of them. -/
theorem claim_C3_race_and_synchronized :
    (∀ (c : Cache) (r : Request) (t k R e : Nat),
        rateScoped r →
        c (rateKey r) = some ⟨⟨k, R⟩, e⟩ → t < R → t < e →
        rateNextBucket c t r = ⟨k + 1, R⟩
        ∧ (raceRun c t t r).2 (rateKey r) = some ⟨⟨k + 1, R⟩, t + WINDOW_SECONDS⟩
        ∧ (∀ key, key ≠ rateKey r → (raceRun c t t r).2 key = c key)
        ∧ (k + 1 ≤ MAX_MESSAGES → (raceRun c t t r).1 = (none, none)))
    ∧ (∀ (c : Cache) (r : Request) (t0 u : Nat) (rest : List Nat),
        rateScoped r →
        cacheGet c u (rateKey r) = none → t0 ≤ u →
        (∀ t ∈ rest, t0 ≤ t ∧ t < t0 + WINDOW_SECONDS) →
        rest.length + 1 - MAX_MESSAGES ≤ countDenies (rateSeq c (u :: rest) r).1) := by
  constructor
  · intro c r t k R e hs hc hR hE
    have hb : rateNextBucket c t r = ⟨k + 1, R⟩ :=
      rateNextBucket_entry c t r k R e hc hE hR
    have hrace : raceRun c t t r =
        ((if k + 1 > MAX_MESSAGES then some rateDenyBody else none,
          if k + 1 > MAX_MESSAGES then some rateDenyBody else none),
          cacheSet (cacheSet c t (rateKey r) ⟨k + 1, R⟩ WINDOW_SECONDS) t (rateKey r)
            ⟨k + 1, R⟩ WINDOW_SECONDS) := by
      unfold raceRun
      simp only [hb, rateCommit_eq]
    refine ⟨hb, ?_, ?_, ?_⟩
    · rw [hrace]
      exact cacheSet_same ..
    · intro key hk
      rw [hrace]
      dsimp only
      rw [cacheSet_other _ _ _ _ _ _ hk, cacheSet_other _ _ _ _ _ _ hk]
    · intro h5
      rw [hrace]
      dsimp only
      rw [if_neg (by omega)]
  · intro c r t0 u rest hs habs hu0 hrest
    obtain ⟨hds, _⟩ := rateSeq_fresh_run r hs t0 u rest c habs hu0 hrest
    rw [hds]
    have hmap : (List.range (rest.length + 1)).map
        (fun i => if i < MAX_MESSAGES then none else some rateDenyBody)
        = (List.range (rest.length + 1)).map
          (fun i => if 0 + i < MAX_MESSAGES then none else some rateDenyBody) :=
      List.map_congr_left fun i _ => if_congr (by omega) rfl rfl
    rw [hmap, countDenies_expected]
    omega

theorem claim_C3_witness :
    (rateNextBucket wCacheRace 30 wReq = ⟨5, 100⟩
      ∧ (raceRun wCacheRace 30 30 wReq).2 (rateKey wReq)
          = some ⟨⟨5, 100⟩, 30 + WINDOW_SECONDS⟩
      ∧ (raceRun wCacheRace 30 30 wReq).1 = (none, none))
    ∧ 7 - MAX_MESSAGES ≤ countDenies (rateSeq wCache (0 :: [1, 2, 3, 4, 5, 6]) wReq).1 := by
  obtain ⟨h1, h2, _, h4⟩ := claim_C3_race_and_synchronized.1 wCacheRace wReq 30 4 100 90
    ⟨rfl, by decide⟩ (by simp [wCacheRace]) (by decide) (by decide)
  exact ⟨⟨h1, h2, h4 (by decide)⟩,
    claim_C3_race_and_synchronized.2 wCache wReq 0 0 [1, 2, 3, 4, 5, 6]
      ⟨rfl, by decide⟩ rfl (le_refl 0) (by decide)⟩

/-- C4, as stated, is false: the source installs no handler around the
cache calls, so a raising store read propagates out of the rate-limit gate
instead of defaulting to Allow — at this concrete input the gate returns no
decision value at all. -/
theorem claim_C4_counterexample :
    (offensiveStepE failingGet wCache 0 wReq).isOk = false := by decide

/-- C4 (amended): the source has no fail-open path — a raising store read
propagates out of the rate-limit gate; only when the store read succeeds
does the gate return a decision value, and then it is exactly the
infallible-store behavior. -/
theorem claim_C4_store_errors (g : String → Except Unit (Option Bucket))
    (c : Cache) (now : Nat) (r : Request)
    (hg : g (rateKey r) = .ok (cacheGet c now (rateKey r))) :
    offensiveStepE g c now r = .ok (offensiveStep c now r) := by
  unfold offensiveStepE offensiveStep
  by_cases hs : rateScoped r
  · rw [if_pos hs, if_pos hs, hg]
    rfl
  · rw [if_neg hs, if_neg hs]

theorem claim_C4_witness :
    offensiveStepE okGet wCache 0 wReq = .ok (offensiveStep wCache 0 wReq) :=
  claim_C4_store_errors okGet wCache 0 wReq rfl

/-- C5: when the local hour is outside `[START_HOUR, END_HOUR)` the
pipeline short-circuits at the time gate with the exact closed-hours
Forbidden body, and the rate limiter is never consulted: the cache is
unchanged at every key. -/
theorem claim_C5_timegate_short_circuit (c : Cache) (ts : String)
    (hour now : Nat) (r : Request)
    (h : time_allowed hour = false) :
    (pipeline c ts hour now r).response
        = .forbidden "Chat is closed. Please come back during allowed hours."
    ∧ ∀ key, (pipeline c ts hour now r).cache key = c key := by
  unfold pipeline pipelineCore
  rw [if_pos h]
  exact ⟨rfl, fun _ => rfl⟩

theorem claim_C5_witness :
    (pipeline wCache "2026-10-12 22:00:00" 22 0 wReq).response
        = .forbidden "Chat is closed. Please come back during allowed hours."
    ∧ (pipeline wCache "2026-10-12 22:00:00" 22 0 wReq).cache (rateKey wReq)
        = wCache (rateKey wReq) :=
  ⟨(claim_C5_timegate_short_circuit wCache "2026-10-12 22:00:00" 22 0 wReq (by decide)).1,
    (claim_C5_timegate_short_circuit wCache "2026-10-12 22:00:00" 22 0 wReq
      (by decide)).2 (rateKey wReq)⟩

/-- C6: a request that is not a POST, or whose path does not start with
`/chats`, passes the rate-limit gate undecided and uncounted: the store is
unchanged at every key. -/
theorem claim_C6_rate_scope (c : Cache) (now : Nat) (r : Request)
    (h : r.method ≠ "POST" ∨ strStarts r.path "/chats" = false) :
    (offensiveStep c now r).1 = none
    ∧ ∀ key, (offensiveStep c now r).2 key = c key := by
  have hns : ¬ rateScoped r := by
    rintro ⟨hm, hp⟩
    rcases h with h | h
    · exact h hm
    · rw [hp] at h
      cases h
  unfold offensiveStep
  rw [if_neg hns]
  exact ⟨rfl, fun _ => rfl⟩

theorem claim_C6_witness :
    (offensiveStep wCache 0 wGetReq).1 = none
    ∧ (offensiveStep wCache 0 wGetReq).2 (rateKey wGetReq) = wCache (rateKey wGetReq) :=
  ⟨(claim_C6_rate_scope wCache 0 wGetReq (Or.inl (by decide))).1,
    (claim_C6_rate_scope wCache 0 wGetReq (Or.inl (by decide))).2 (rateKey wGetReq)⟩

/-- C7: the time gate allows exactly the local hours in the half-open
interval `[START_HOUR, END_HOUR)`, with defaults 6 and 21; in particular
hours 6 and 20 are allowed, 21 and 5 are not. -/
theorem claim_C7_time_halfopen :
    START_HOUR = 6 ∧ END_HOUR = 21
    ∧ (∀ hour : Nat, time_allowed hour = true ↔ (6 ≤ hour ∧ hour < 21))
    ∧ time_allowed 6 = true ∧ time_allowed 20 = true
    ∧ time_allowed 21 = false ∧ time_allowed 5 = false := by
  refine ⟨rfl, rfl, ?_, by decide, by decide, by decide, by decide⟩
  intro hour
  unfold time_allowed START_HOUR END_HOUR
  simp

/-- C8: on a path with a protected prefix the role gate passes exactly when
a user is attached, authenticated, and either a superuser or in group
`admin` or `moderator`; whenever that fails (a missing user included) it
denies with the exact Forbidden body; on any other path it always passes. -/
theorem claim_C8_rolegate (r : Request) :
    (roleProtected r = true →
      (roleStep r = none ↔
        ∃ u, r.user = some u ∧ u.is_authenticated = true ∧
          (u.is_superuser = true ∨ ∃ g ∈ u.groups, g = "admin" ∨ g = "moderator")))
    ∧ (roleProtected r = true → role_is_allowed r = false →
        roleStep r = some "Forbidden: admin/moderator role required.")
    ∧ (roleProtected r = false → roleStep r = none) := by
  refine ⟨fun hprot => ?_, fun hprot hna => ?_, fun hnp => ?_⟩
  · rw [← role_is_allowed_iff r]
    unfold roleStep
    rw [if_pos hprot]
    by_cases ha : role_is_allowed r
    · simp [ha]
    · simp [ha, roleDenyBody]
  · unfold roleStep
    rw [if_pos hprot, if_neg]
    · rfl
    · rw [hna]
      exact Bool.false_ne_true
  · unfold roleStep
    rw [if_neg]
    rw [hnp]
    exact Bool.false_ne_true

theorem claim_C8_witness :
    roleStep wReqAdmin = none
    ∧ roleStep wReqAnon = some "Forbidden: admin/moderator role required." :=
  ⟨((claim_C8_rolegate wReqAdmin).1 (by decide)).mpr
      ⟨wAdmin, rfl, rfl, Or.inr ⟨"admin", by decide, Or.inl rfl⟩⟩,
    (claim_C8_rolegate wReqAnon).2.1 (by decide) (by decide)⟩

/-- C9: every request through the pipeline carries exactly one log line,
in the literal template `"<ts> - User: <user> - Path: <path>"`; the user
field is the username exactly for an attached authenticated user and
`"anonymous"` when the user is absent or unauthenticated; and the logged
timestamp never changes the decision (logging cannot deny). -/
theorem claim_C9_log_line (c : Cache) (ts ts' : String) (hour now : Nat)
    (r : Request) :
    (pipeline c ts hour now r).log
        = ts ++ " - User: " ++ log_user r ++ " - Path: " ++ r.path
    ∧ (∀ u, r.user = some u → u.is_authenticated = true → log_user r = u.username)
    ∧ (r.user = none → log_user r = "anonymous")
    ∧ (∀ u, r.user = some u → u.is_authenticated = false → log_user r = "anonymous")
    ∧ (pipeline c ts' hour now r).response = (pipeline c ts hour now r).response := by
  refine ⟨rfl, fun u hu ha => ?_, fun hn => ?_, fun u hu ha => ?_, rfl⟩
  · simp [log_user, hu, ha]
  · simp [log_user, hn]
  · simp [log_user, hu, ha]

theorem claim_C9_witness :
    (pipeline wCache "2026-10-12 10:00:00" 10 0 wReq).log
        = "2026-10-12 10:00:00" ++ " - User: " ++ log_user wReq ++ " - Path: " ++ wReq.path
    ∧ log_user wReq = "anonymous" :=
  ⟨(claim_C9_log_line wCache "2026-10-12 10:00:00" "x" 10 0 wReq).1,
    (claim_C9_log_line wCache "2026-10-12 10:00:00" "x" 10 0 wReq).2.2.1 rfl⟩

/-- C10: on every scoped request — Allow and Deny branch alike — the rate
limiter writes the client's entry back with count at least 1, a reset
instant strictly later than the write time, and a fresh full
`WINDOW_SECONDS` time-to-live counted from the write; and a written entry
can outlive its own reset instant (exhibited: a window resetting at 60 is
stored until 90). -/
theorem claim_C10_write_invariant :
    (∀ (c : Cache) (now : Nat) (r : Request), rateScoped r →
      (offensiveStep c now r).2 (rateKey r)
          = some ⟨rateNextBucket c now r, now + WINDOW_SECONDS⟩
        ∧ 1 ≤ (rateNextBucket c now r).count
        ∧ now < (rateNextBucket c now r).reset_at)
    ∧ ((offensiveStep wCacheMid 30 wReq).2 (rateKey wReq) = some ⟨⟨2, 60⟩, 90⟩
        ∧ (60 : Nat) < 90) := by
  constructor
  · intro c now r hs
    obtain ⟨h1, h2⟩ := rateNextBucket_spec c now r
    refine ⟨?_, h1, h2⟩
    rw [offensiveStep_scoped c now r hs, rateCommit_eq]
    exact cacheSet_same ..
  · exact ⟨by decide, by decide⟩

theorem claim_C10_witness :
    (offensiveStep wCacheMid 30 wReq).2 (rateKey wReq)
        = some ⟨rateNextBucket wCacheMid 30 wReq, 30 + WINDOW_SECONDS⟩
      ∧ 1 ≤ (rateNextBucket wCacheMid 30 wReq).count
      ∧ 30 < (rateNextBucket wCacheMid 30 wReq).reset_at :=
  claim_C10_write_invariant.1 wCacheMid 30 wReq ⟨rfl, by decide⟩

end Middleware
